import Mathlib

/-!
Verification development for the agent sandbox platform: a shallow embedding
of the container pool (orchestrator/pool.go), the sandbox path resolution
(sandbox/container.go), the dispatcher event pipeline (dispatcher/), the
session worker (session/worker/worker.go), the session repository
(session/repo) and the session cleaner (session/cleanup.go), together with
theorems settling the specification claims about them.
-/

namespace AgentSandbox

/-! ### Pool configuration (orchestrator, PoolConfig and NewPool) -/

/-- Mirrors `orchestrator.PoolConfig` (the fields `NewPool` reads).
`HealthCheckInterval` is kept in milliseconds. -/
structure PoolConfig where
  minIdle : Nat
  maxBurst : Nat
  healthCheckIntervalMs : Nat
  disableHealthCheck : Bool
  deriving Repr, DecidableEq

/-- The configuration normalisation performed at the top of `NewPool`
(pool.go lines 34-44): a zero health-check interval becomes 2 seconds, a
zero `MaxBurst` becomes 5, and `MaxBurst` is raised to `MinIdle` when
`MaxBurst < MinIdle`. -/
def normalizePoolConfig (cfg : PoolConfig) : PoolConfig :=
  let cfg1 := if cfg.healthCheckIntervalMs = 0 then { cfg with healthCheckIntervalMs := 2000 } else cfg
  let cfg2 := if cfg1.maxBurst = 0 then { cfg1 with maxBurst := 5 } else cfg1
  if cfg2.maxBurst < cfg2.minIdle then { cfg2 with maxBurst := cfg2.minIdle } else cfg2

/-! ### Pool state (orchestrator.Pool)

The pool state at a quiescent point: `tokens` is the number of capacity
tokens logically available in `availableCh` (channel content plus
blocking sends already issued but not yet drained: a blocking send is
always delivered, so at quiescent points it counts as a token), `idle` is
the `idleContainers` sequence (last element is the LIFO top), and
`managed` is the `managedCount` field, an integer exactly as in the code. -/

structure PoolState where
  maxBurst : Nat
  minIdle : Nat
  tokens : Nat
  idle : List Nat
  managed : Int
  deriving Repr, DecidableEq

/-- `managedCount` of the state (the code's explicit counter). -/
def managedCount (s : PoolState) : Int := s.managed

/-- The state `NewPool` builds for a configuration that was already
normalised: `availableCh` filled with exactly `MaxBurst` tokens, no idle
containers, `managedCount = 0` (orphan-free startup). -/
def newPoolState (cfg : PoolConfig) : PoolState :=
  let n := normalizePoolConfig cfg
  { maxBurst := n.maxBurst, minIdle := n.minIdle, tokens := n.maxBurst, idle := [], managed := 0 }

/-- Fresh pool with the given (already normalised) capacity and idle target. -/
def initPool (maxBurst minIdle : Nat) : PoolState :=
  { maxBurst := maxBurst, minIdle := minIdle, tokens := maxBurst, idle := [], managed := 0 }

/-! ### Micro steps of the pool operations (pool.go)

Each micro step mirrors one block of the source so the error-path
accounting can be stated exactly. -/

/-- Taking one token from `availableCh` (the `select` at the top of the
`Acquire` loop, pool.go lines 125-132). -/
def takeToken (s : PoolState) : PoolState := { s with tokens := s.tokens - 1 }

/-- The burst reservation inside `Acquire` (pool.go line 167): under the
lock, `managedCount++` before creating a warm container. -/
def burstReserveCount (s : PoolState) : PoolState := { s with managed := s.managed + 1 }

/-- The failure path of burst creation in `Acquire` (pool.go lines
171-179): `managedCount--` under the lock and one token sent back to
`availableCh`. -/
def burstFailRollback (s : PoolState) : PoolState :=
  { s with managed := s.managed - 1, tokens := s.tokens + 1 }

/-- One reservation of the replenish loop in `maintainPool` (pool.go lines
328-336): consume one token from `availableCh` and `managedCount++`. -/
def maintainReserveStep (s : PoolState) : PoolState :=
  { s with tokens := s.tokens - 1, managed := s.managed + 1 }

/-- The failure path of one replenish creation in `maintainPool` (pool.go
lines 373-377): `managedCount--` under the lock, one token sent back. -/
def maintainFailRollback (s : PoolState) : PoolState :=
  { s with managed := s.managed - 1, tokens := s.tokens + 1 }

/-- The commit of one successful replenish creation in `maintainPool`
(pool.go lines 381-401): under the lock re-check `idle < MinIdle` and
`managedCount <= MaxBurst`; if so append the container to the idle set and
send one token back, else roll `managedCount` back, destroy the container
and send one token back. -/
def maintainCommit (s : PoolState) (c : Nat) : PoolState :=
  if s.idle.length < s.minIdle ∧ s.managed ≤ (s.maxBurst : Int) then
    { s with idle := s.idle ++ [c], tokens := s.tokens + 1 }
  else
    { s with managed := s.managed - 1, tokens := s.tokens + 1 }

/-- `Release` (pool.go lines 188-217): under the lock `managedCount--`,
then a non-blocking send of one token (dropped with a warning when the
channel is already full, i.e. holds `MaxBurst` tokens). The container is
not touched synchronously. -/
def releaseStep (s : PoolState) : PoolState :=
  { s with managed := s.managed - 1,
           tokens := if s.tokens < s.maxBurst then s.tokens + 1 else s.tokens }

/-- The deferred cleanup `Release` spawns after returning: stop with a
2-second timeout, force-remove, all under a 30-second background context. -/
structure CleanupTask where
  containerId : Nat
  stopTimeoutSeconds : Nat
  forceRemove : Bool
  deadlineSeconds : Nat
  deriving Repr, DecidableEq

/-- `Release` as the caller sees it: the synchronous state change plus the
deferred cleanup task (executed asynchronously after `Release` returns). -/
def releaseFull (s : PoolState) (c : Nat) : PoolState × CleanupTask :=
  (releaseStep s, ⟨c, 2, true, 30⟩)

/-! ### Whole pool operations between quiescent points -/

/-- One complete pool operation. Container identities label creations;
`healthEvict i` is the health-check loop discarding the dead idle
container at index `i`. -/
inductive PoolOp where
  | acquireReuse
  | acquireDiscard
  | acquireBurstOk (c : Nat)
  | acquireBurstFail
  | release
  | healthEvict (i : Nat)
  | maintainOk (c : Nat)
  | maintainFail
  deriving Repr, DecidableEq

/-- Whether the operation is a health-check eviction. -/
def PoolOp.isEvict : PoolOp → Bool
  | .healthEvict _ => true
  | _ => false

/-- Net effect of one complete operation on the pool state, `none` when the
operation is not enabled (no token, wrong shape of the idle set, or a
release without an outstanding lease).

* `acquireReuse` (pool.go 126-147): take a token, pop the idle LIFO top,
  found alive, leased to the caller.
* `acquireDiscard` (pool.go 136-162): take a token, pop a dead idle top,
  asynchronously `managedCount--` and return the token, loop again.
* `acquireBurstOk` (pool.go 165-184): take a token with the idle set
  empty, `managedCount++`, creation succeeds.
* `acquireBurstFail`: same, but creation fails and the error path rolls
  back (exactly `burstFailRollback ∘ burstReserveCount ∘ takeToken`).
* `release`: `releaseStep` with the caller holding a leased container.
* `healthEvict i` (pool.go 264-280): drop a dead idle container,
  `managedCount--`, send one token back.
* `maintainOk c` / `maintainFail` (pool.go 302-406): one replenish
  creation, enabled when `idle < MinIdle` and `managedCount < MaxBurst`
  and a token is available. -/
def applyOp (s : PoolState) (op : PoolOp) : Option PoolState :=
  match op with
  | .acquireReuse =>
      if 1 ≤ s.tokens ∧ s.idle ≠ [] then
        some { s with tokens := s.tokens - 1, idle := s.idle.dropLast }
      else none
  | .acquireDiscard =>
      if 1 ≤ s.tokens ∧ s.idle ≠ [] then
        some { s with idle := s.idle.dropLast, managed := s.managed - 1 }
      else none
  | .acquireBurstOk _ =>
      if 1 ≤ s.tokens ∧ s.idle = [] then
        some { s with tokens := s.tokens - 1, managed := s.managed + 1 }
      else none
  | .acquireBurstFail =>
      if 1 ≤ s.tokens ∧ s.idle = [] then
        some (burstFailRollback (burstReserveCount (takeToken s)))
      else none
  | .release =>
      if 1 ≤ s.managed - (s.idle.length : Int) then some (releaseStep s) else none
  | .healthEvict i =>
      if i < s.idle.length then
        some { s with idle := s.idle.eraseIdx i, managed := s.managed - 1, tokens := s.tokens + 1 }
      else none
  | .maintainOk c =>
      if s.idle.length < s.minIdle ∧ s.managed < (s.maxBurst : Int) ∧ 1 ≤ s.tokens then
        some (maintainCommit (maintainReserveStep s) c)
      else none
  | .maintainFail =>
      if s.idle.length < s.minIdle ∧ s.managed < (s.maxBurst : Int) ∧ 1 ≤ s.tokens then
        some (maintainFailRollback (maintainReserveStep s))
      else none

/-- Run a sequence of complete pool operations from a state. -/
def runPool (s : PoolState) : List PoolOp → Option PoolState
  | [] => some s
  | op :: ops =>
    match applyOp s op with
    | some s' => runPool s' ops
    | none => none

/-- No health-check eviction occurs in the sequence. -/
def evictFree (ops : List PoolOp) : Bool := ops.all (fun op => !op.isEvict)

/-- The accounting invariant the implementation actually maintains on
eviction-free runs: the tokens in `availableCh` equal `MaxBurst` minus the
number of leased or in-flight containers (`managedCount - |idle|`), and
the idle set never outgrows the token count. -/
def poolInv (s : PoolState) : Prop :=
  (s.tokens : Int) + s.managed - (s.idle.length : Int) = (s.maxBurst : Int)
  ∧ (s.idle.length : Int) ≤ (s.tokens : Int)

/-! ### Path resolution (sandbox/container.go)

`resolveHostPath` and `resolveContainerPath` rely on Go's lexical path
cleaning (`path.Clean`, and `filepath.Join`/`filepath.Clean`, which on
Linux coincide with the slash-separated versions). We embed that cleaning
algorithm. -/

/-- Split a character sequence at every `/` (the components Go's path
cleaning walks over). `acc` holds the current component reversed. -/
def splitSlash : List Char → List Char → List (List Char)
  | [], acc => [acc.reverse]
  | c :: cs, acc => if c = '/' then acc.reverse :: splitSlash cs [] else splitSlash cs (c :: acc)

/-- Join components back with `/` separators. -/
def joinSlash : List (List Char) → List Char
  | [] => []
  | [x] => x
  | x :: y :: xs => x ++ '/' :: joinSlash (y :: xs)

/-- Process the slash-separated components of a path against a stack of
kept components (stored reversed, head = innermost). Mirrors Go
`path.Clean`: empty and `.` components are dropped; `..` pops a previous
real component, is dropped at the root, and is kept for relative paths. -/
def goCleanCore (rooted : Bool) : List (List Char) → List (List Char) → List (List Char)
  | [], stack => stack
  | comp :: comps, stack =>
    if comp = [] ∨ comp = ['.'] then goCleanCore rooted comps stack
    else if comp = ['.', '.'] then
      match stack with
      | [] => if rooted then goCleanCore rooted comps [] else goCleanCore rooted comps [['.', '.']]
      | top :: rest =>
        if top = ['.', '.'] then goCleanCore rooted comps (comp :: top :: rest)
        else goCleanCore rooted comps rest
    else goCleanCore rooted comps (comp :: stack)

/-- Go `path.Clean` on the character sequence of a path. -/
def goPathCleanChars (p : List Char) : List Char :=
  match p with
  | [] => ['.']
  | c :: _ =>
    let rooted := c = '/'
    let stack := goCleanCore rooted (splitSlash p []) []
    let body := joinSlash stack.reverse
    if rooted then (if body = [] then ['/'] else '/' :: body)
    else (if body = [] then ['.'] else body)

/-- Go `path.Clean` for slash-separated paths (equal to `filepath.Clean`
on Linux). -/
def goPathClean (p : String) : String :=
  String.mk (goPathCleanChars p.data)

/-- `strings.HasPrefix s pre` on character sequences. -/
def charsHasPrefix : List Char → List Char → Bool
  | _, [] => true
  | [], _ :: _ => false
  | c :: cs, p :: ps => c = p && charsHasPrefix cs ps

/-- Go `strings.HasPrefix(s, pre)`. -/
def goHasPrefix (s pre : String) : Bool := charsHasPrefix s.data pre.data

/-- Go `path.Join`/`filepath.Join` restricted to two elements: empty
elements are skipped and the result is cleaned. -/
def goJoin2 (a b : String) : String :=
  if a = "" then (if b = "" then "" else goPathClean b)
  else if b = "" then goPathClean a
  else goPathClean (a ++ "/" ++ b)

/-- The error taxonomy relevant to path resolution: `resolveHostPath`
wraps `ErrInvalidPath`, while `resolveContainerPath` fails with a plain
formatted error. -/
inductive SandboxErr where
  | invalidPath (msg : String)
  | pathEscape (msg : String)
  deriving Repr, DecidableEq

/-- `Container.resolveHostPath` (container.go lines 72-79): join the user
path onto the host workspace root and accept iff the cleaned root is a
string-prefix of the joined target. -/
def resolveHostPath (hostPath userPath : String) : Except SandboxErr String :=
  let target := goJoin2 hostPath userPath
  if goHasPrefix target (goPathClean hostPath) then .ok target
  else .error (.invalidPath ("invalid path: path escapes workspace: " ++ userPath))

/-- The constant container mount path `DefaultMountPath` (sandbox/types.go). -/
def defaultMountPath : String := "/app/workspace"

/-- `Container.resolveContainerPath` (container.go lines 81-93): join onto
the mount path with forward-slash semantics, clean, and accept iff the
mount path is a string-prefix of the cleaned target. -/
def resolveContainerPath (mountPath userPath : String) : Except SandboxErr String :=
  let target := goJoin2 mountPath userPath
  let cleanedTarget := goPathClean target
  if goHasPrefix cleanedTarget mountPath then .ok cleanedTarget
  else .error (.pathEscape ("Path escapes workspace: " ++ userPath))

/-- The spec's reading of workspace confinement ("the resolved target lies
within the workspace root"): the target equals the root or sits strictly
below it. Stated from the spec's words, for comparison with the code's
string-prefix check. -/
def specWithinRoot (root target : String) : Bool :=
  target = root || goHasPrefix target (root ++ "/")

/-! ### Dispatcher event pipeline (dispatcher/types.go, dispatcher/dispatcher.go) -/

/-- The proto `EventType` enum carried by `AgentEvent` frames. -/
inductive ProtoEventType where
  | unspecified
  | thought
  | toolCall
  | toolResult
  | answer
  | errorEvent
  | statusEvent
  | textChunk
  deriving Repr, DecidableEq

/-- The bus event types (eventbus/types.go). -/
inductive BusEventType where
  | sessionReady
  | sessionClosed
  | sessionError
  | agentThought
  | agentToolCall
  | agentToolResult
  | agentAnswer
  | agentError
  | agentStatus
  | agentTextChunk
  | agentUnknown
  | streamDone
  deriving Repr, DecidableEq

/-- `mapProtoEventType` (dispatcher/types.go lines 9-28), cases in source
order with the default falling through to `agent.unknown`. -/
def mapProtoEventType : ProtoEventType → BusEventType
  | .answer => .agentAnswer
  | .errorEvent => .agentError
  | .thought => .agentThought
  | .toolCall => .agentToolCall
  | .toolResult => .agentToolResult
  | .statusEvent => .agentStatus
  | .textChunk => .agentTextChunk
  | _ => .agentUnknown

/-- A decoded JSON value, as far as the dispatcher's type assertions
distinguish them. -/
inductive JVal where
  | str (s : String)
  | num (n : Int)
  | boolean (b : Bool)
  | null
  deriving Repr, DecidableEq

/-- An `AgentEvent` frame. `metadata` is the outcome of
`json.Unmarshal(MetadataJson)` into a map: `none` when `MetadataJson` is
empty or does not decode to a map, `some m` otherwise. -/
structure AgentEvent where
  type : ProtoEventType
  content : String
  source : String
  metadata : Option (List (String × JVal))
  deriving Repr, DecidableEq

/-- `meta[k].(string)`: the value under key `k` when it is a string. -/
def metaStr (meta : List (String × JVal)) (k : String) : Option String :=
  match meta.lookup k with
  | some (.str v) => some v
  | _ => none

/-- `buildPayload` (dispatcher/types.go lines 33-56): `text` and `source`
always; from a decoded metadata map, `tool_name` from the map key `name`,
`arguments` and `tool_call_id` from the keys of those names — each only
when present with a string value. -/
def buildPayload (resp : AgentEvent) : List (String × String) :=
  let payload := [("text", resp.content), ("source", resp.source)]
  match resp.metadata with
  | none => payload
  | some meta =>
    let payload := match metaStr meta "name" with
      | some v => payload ++ [("tool_name", v)]
      | none => payload
    let payload := match metaStr meta "arguments" with
      | some v => payload ++ [("arguments", v)]
      | none => payload
    match metaStr meta "tool_call_id" with
      | some v => payload ++ [("tool_call_id", v)]
      | none => payload

/-- An event published on the session topic. -/
structure BusEvent where
  type : BusEventType
  sessionID : String
  payload : List (String × String)
  deriving Repr, DecidableEq

/-- The bus event the reader publishes for one received frame
(dispatcher.go lines 114-119). -/
def frameEvent (sessionID : String) (resp : AgentEvent) : BusEvent :=
  ⟨mapProtoEventType resp.type, sessionID, buildPayload resp⟩

/-- `publishError` (dispatcher.go lines 146-153). -/
def publishErrorEvent (sessionID msg : String) : BusEvent :=
  ⟨.sessionError, sessionID, [("error", msg)]⟩

/-- The deferred `stream.done` publication (dispatcher.go lines 90-100). -/
def streamDoneEvent (sessionID : String) : BusEvent :=
  ⟨.streamDone, sessionID, [("text", "stream completed")]⟩

/-- How a run stream ends: `Recv` returns `io.EOF` or a transport/frame
error. -/
inductive StreamEnd where
  | eof
  | recvError (msg : String)
  deriving Repr, DecidableEq

/-- Everything the reader spawned by a successful `Dispatch` publishes
(dispatcher.go lines 90-125): one bus event per received frame in order;
on a `Recv` error a `session.error` event; and, from the deferred
function, a final `stream.done` on every exit path. -/
def readerPublishes (sessionID : String) (frames : List AgentEvent) (ending : StreamEnd) :
    List BusEvent :=
  frames.map (frameEvent sessionID)
    ++ (match ending with
        | .eof => []
        | .recvError msg => [publishErrorEvent sessionID msg])
    ++ [streamDoneEvent sessionID]

/-! ### Session worker (session/worker/worker.go) -/

/-- The session status enum (session): `initializing`, `ready`, `running`,
`terminated`, `error`. -/
inductive SessionStatus where
  | initializing
  | ready
  | running
  | terminated
  | errorStatus
  deriving Repr, DecidableEq

/-- `orchestrator.WarmStrategyType`. -/
def warmStrategyType : String := "Warm-Strategy"

/-- `orchestrator.ColdStrategyType`. -/
def coldStrategyType : String := "Cold-Strategy"

/-- `session.SessionCreatePayload`. -/
structure SessionCreatePayload where
  sessionID : String
  projectID : String
  userID : String
  image : String
  strategy : String
  envVars : List String
  deriving Repr, DecidableEq

/-- The container handle fields the worker reads after `strategy.Get`. -/
structure ContainerInfo where
  id : String
  ip : String
  hostPath : String
  deriving Repr, DecidableEq

/-- An observable side effect of `HandleSessionCreate`: a repository call
or a bus publication, recorded in execution order. -/
inductive WorkerEffect where
  | updateStatus (id : String) (st : SessionStatus)
  | updateContainerInfo (id cid ip : String)
  | publishReady (id cid ip hostPath : String)
  | publishSessionError (id msg : String)
  deriving Repr, DecidableEq

/-- Outcomes of the external calls `HandleSessionCreate` makes, in the
order the code can reach them. -/
structure WorkerOracle where
  getResult : Except String ContainerInfo
  waitAgentResult : Except String Unit
  updateContainerInfoOk : Bool
  updateStatusReadyOk : Bool
  tarResult : Except String Unit
  uploadResult : Except String Unit
  copyEnvResult : Except String Unit
  startAgentResult : Except String Unit
  deriving Repr

/-- `SessionTaskWorker.HandleSessionCreate` (worker.go lines 42-187) as a
function from the decoded payload and the outcomes of its external calls
to its return value and its effect trace. The strategy dispatch (lines
57-66) selects Warm or Cold and returns an error on any other string. -/
def handleSessionCreate (decoded : Except String SessionCreatePayload) (o : WorkerOracle) :
    Except String Unit × List WorkerEffect :=
  match decoded with
  | .error e => (.error ("json unmarshal error: " ++ e), [])
  | .ok payload =>
    if payload.strategy ≠ warmStrategyType ∧ payload.strategy ≠ coldStrategyType then
      (.error ("unknown strategy type: " ++ payload.strategy), [])
    else
      match o.getResult with
      | .error e =>
        (.error e,
         [.updateStatus payload.sessionID .errorStatus,
          .publishSessionError payload.sessionID e])
      | .ok container =>
        let coldWait : Option (Except String Unit × List WorkerEffect) :=
          if payload.strategy = coldStrategyType then
            match o.waitAgentResult with
            | .error e =>
              some (.error e,
                [.updateStatus payload.sessionID .errorStatus,
                 .publishSessionError payload.sessionID ("cold container agent not ready: " ++ e)])
            | .ok _ => none
          else none
        match coldWait with
        | some out => out
        | none =>
          if !o.updateContainerInfoOk then
            (.error "update container info failed",
             [.updateContainerInfo payload.sessionID container.id container.ip,
              .updateStatus payload.sessionID .errorStatus])
          else if !o.updateStatusReadyOk then
            (.error "update status failed",
             [.updateContainerInfo payload.sessionID container.id container.ip,
              .updateStatus payload.sessionID .ready])
          else
            let base : List WorkerEffect :=
              [.updateContainerInfo payload.sessionID container.id container.ip,
               .updateStatus payload.sessionID .ready,
               .publishReady payload.sessionID container.id container.ip container.hostPath]
            if payload.strategy = warmStrategyType then
              match o.tarResult with
              | .error e =>
                (.error e, base ++
                  [.updateStatus payload.sessionID .errorStatus,
                   .publishSessionError payload.sessionID ("failed to tar project: " ++ e)])
              | .ok _ =>
                match o.uploadResult with
                | .error e =>
                  (.error e, base ++
                    [.updateStatus payload.sessionID .errorStatus,
                     .publishSessionError payload.sessionID ("failed to sync project: " ++ e)])
                | .ok _ =>
                  match o.copyEnvResult with
                  | .error e =>
                    (.error e, base ++
                      [.updateStatus payload.sessionID .errorStatus,
                       .publishSessionError payload.sessionID ("failed to write .env: " ++ e)])
                  | .ok _ =>
                    match o.startAgentResult with
                    | .error e =>
                      (.error e, base ++
                        [.updateStatus payload.sessionID .errorStatus,
                         .publishSessionError payload.sessionID ("failed to start agent server: " ++ e)])
                    | .ok _ => (.ok (), base)
            else (.ok (), base)

/-! ### Session repository (session/repo, part of the session manager) -/

/-- A session row, durable-store shape. -/
structure SessionRec where
  id : String
  projectID : String
  userID : String
  nodeIP : String
  containerID : String
  status : SessionStatus
  strategy : String
  createdAt : Int
  deriving Repr, DecidableEq

/-- `sessionCacheKey` (repo/types.go). -/
def sessionCacheKey (id : String) : String := "session:" ++ id ++ ":location"

/-- `sessionCacheTTL` (repo/types.go): five minutes, in seconds. -/
def sessionCacheTTLSeconds : Nat := 300

/-- A cache entry: the serialised session plus the TTL it was set with. -/
structure CacheEntry where
  value : SessionRec
  ttlSeconds : Nat
  deriving Repr, DecidableEq

/-- State of the repository's backing stores: durable rows, key-value
cache, and whether a cache client is configured (`r.redis != nil`). -/
structure RepoState where
  db : List SessionRec
  cache : List (String × CacheEntry)
  hasRedis : Bool
  deriving Repr, DecidableEq

/-- Select-by-primary-key on the durable store. -/
def dbLookup (db : List SessionRec) (id : String) : Option SessionRec :=
  db.find? (fun r => r.id == id)

/-- Cache `GET`. -/
def cacheGet (s : RepoState) (key : String) : Option CacheEntry :=
  s.cache.lookup key

/-- Cache `SET` with TTL. -/
def cacheSet (s : RepoState) (key : String) (e : CacheEntry) : RepoState :=
  { s with cache := (key, e) :: s.cache.filter (fun kv => !(kv.1 == key)) }

/-- Cache `DEL`. -/
def cacheDel (s : RepoState) (key : String) : RepoState :=
  { s with cache := s.cache.filter (fun kv => !(kv.1 == key)) }

/-- Result of `Repository.GetByID`: the returned value, the state after
the call, and whether the durable store was read. -/
structure GetResult where
  result : Except String SessionRec
  state : RepoState
  readDb : Bool
  deriving Repr

/-- `Repository.GetByID` (repo, lines 44-103): on a cache hit return the
cached record immediately; on a miss read the durable store and, when a
cache client is configured, populate the cache with the 5-minute TTL. -/
def getByID (s : RepoState) (id : String) : GetResult :=
  match (if s.hasRedis then cacheGet s (sessionCacheKey id) else none) with
  | some e => ⟨.ok e.value, s, false⟩
  | none =>
    match dbLookup s.db id with
    | none => ⟨.error "pg: no rows in result set", s, true⟩
    | some row =>
      let s' := if s.hasRedis then cacheSet s (sessionCacheKey id) ⟨row, sessionCacheTTLSeconds⟩ else s
      ⟨.ok row, s', true⟩

/-- The durable-store side of `UpdateSessionStatus`. -/
def dbUpdateStatus (db : List SessionRec) (id : String) (st : SessionStatus) : List SessionRec :=
  db.map (fun r => if r.id == id then { r with status := st } else r)

/-- The durable-store side of `UpdateSessionContainerInfo`. -/
def dbUpdateContainerInfo (db : List SessionRec) (id cid ip : String) : List SessionRec :=
  db.map (fun r => if r.id == id then { r with containerID := cid, nodeIP := ip } else r)

/-- `Repository.UpdateSessionStatus` (repo, lines 105-120): write the
durable store (`dbOk` is the database call outcome; on failure return
before touching the cache), then delete the cache entry unconditionally. -/
def updateSessionStatus (s : RepoState) (dbOk : Bool) (id : String) (st : SessionStatus) :
    Except String Unit × RepoState :=
  if !dbOk then (.error "db update failed", s)
  else
    let s1 := { s with db := dbUpdateStatus s.db id st }
    let s2 := if s1.hasRedis then cacheDel s1 (sessionCacheKey id) else s1
    (.ok (), s2)

/-- `Repository.UpdateSessionContainerInfo` (repo, lines 122-137). -/
def updateSessionContainerInfo (s : RepoState) (dbOk : Bool) (id cid ip : String) :
    Except String Unit × RepoState :=
  if !dbOk then (.error "db update failed", s)
  else
    let s1 := { s with db := dbUpdateContainerInfo s.db id cid ip }
    let s2 := if s1.hasRedis then cacheDel s1 (sessionCacheKey id) else s1
    (.ok (), s2)

/-! ### Session cleaner (session/cleanup.go) -/

/-- The statuses the cleaner lists, in source order (cleanup.go lines
78-82). -/
def activeStatuses : List SessionStatus := [.initializing, .running, .ready]

/-- `ListByStatus` (repo, lines 139-163): the rows whose status is in the
given set. -/
def listByStatus (db : List SessionRec) (sts : List SessionStatus) : List SessionRec :=
  db.filter (fun r => sts.contains r.status)

/-- The sessions one cleaner tick passes to the terminator (cleanup.go
lines 73-110): listed in an active status and created strictly before
`now - MaxAge`. -/
def cleanerTargets (now maxAge : Int) (db : List SessionRec) : List SessionRec :=
  (listByStatus db activeStatuses).filter (fun sess => sess.createdAt < now - maxAge)

/-- One cleaner tick: the ids passed to the terminator, and the status
writes forced when the terminator fails (`termFails` gives each
termination's outcome). -/
def cleanupTick (now maxAge : Int) (db : List SessionRec) (termFails : String → Bool) :
    List String × List (String × SessionStatus) :=
  ((cleanerTargets now maxAge db).map (fun sess => sess.id),
   ((cleanerTargets now maxAge db).filter (fun sess => termFails sess.id)).map
     (fun sess => (sess.id, SessionStatus.errorStatus)))

/-! ### Pool invariant lemmas -/

/-- The fresh pool satisfies the accounting invariant. -/
theorem poolInv_init (mb mi : Nat) : poolInv (initPool mb mi) := by
  constructor <;> simp [initPool]

/-- Every eviction-free complete operation preserves the accounting
invariant and the capacity. -/
theorem poolInv_step {s s' : PoolState} {op : PoolOp} (hev : op.isEvict = false)
    (h : applyOp s op = some s') (hinv : poolInv s) :
    poolInv s' ∧ s'.maxBurst = s.maxBurst := by
  obtain ⟨h1, h2⟩ := hinv
  cases op with
  | healthEvict i => simp [PoolOp.isEvict] at hev
  | acquireReuse =>
    rw [applyOp] at h
    split at h
    · next hc =>
      obtain ⟨ht, hne⟩ := hc
      have hlen : 0 < s.idle.length := List.length_pos.mpr hne
      injection h with h
      subst h
      refine ⟨⟨?_, ?_⟩, rfl⟩ <;> simp only [poolInv, List.length_dropLast] <;> omega
    · cases h
  | acquireDiscard =>
    rw [applyOp] at h
    split at h
    · next hc =>
      obtain ⟨ht, hne⟩ := hc
      have hlen : 0 < s.idle.length := List.length_pos.mpr hne
      injection h with h
      subst h
      refine ⟨⟨?_, ?_⟩, rfl⟩ <;> simp only [poolInv, List.length_dropLast] <;> omega
    · cases h
  | acquireBurstOk c =>
    rw [applyOp] at h
    split at h
    · next hc =>
      obtain ⟨ht, hemp⟩ := hc
      injection h with h
      subst h
      simp only [hemp, List.length_nil] at h1 h2
      refine ⟨⟨?_, ?_⟩, rfl⟩ <;> simp only [poolInv, hemp, List.length_nil] <;> omega
    · cases h
  | acquireBurstFail =>
    rw [applyOp] at h
    split at h
    · next hc =>
      obtain ⟨ht, hemp⟩ := hc
      injection h with h
      subst h
      refine ⟨⟨?_, ?_⟩, rfl⟩ <;>
        simp only [burstFailRollback, burstReserveCount, takeToken] <;> omega
    · cases h
  | release =>
    rw [applyOp] at h
    split at h
    · next hc =>
      injection h with h
      subst h
      have hlt : s.tokens < s.maxBurst := by omega
      refine ⟨⟨?_, ?_⟩, rfl⟩ <;> simp only [releaseStep, if_pos hlt] <;> omega
    · cases h
  | maintainOk c =>
    rw [applyOp] at h
    split at h
    · next hc =>
      obtain ⟨hlt, hm, ht⟩ := hc
      injection h with h
      subst h
      simp only [maintainCommit, maintainReserveStep]
      split
      · refine ⟨⟨?_, ?_⟩, rfl⟩ <;> simp only [List.length_append, List.length_cons,
          List.length_nil] <;> omega
      · refine ⟨⟨?_, ?_⟩, rfl⟩ <;> omega
    · cases h
  | maintainFail =>
    rw [applyOp] at h
    split at h
    · next hc =>
      obtain ⟨hlt, hm, ht⟩ := hc
      injection h with h
      subst h
      refine ⟨⟨?_, ?_⟩, rfl⟩ <;>
        simp only [maintainFailRollback, maintainReserveStep] <;> omega
    · cases h

/-- The accounting invariant is preserved along any eviction-free run. -/
theorem poolInv_run : ∀ (ops : List PoolOp) (s s' : PoolState), evictFree ops = true →
    runPool s ops = some s' → poolInv s → poolInv s' ∧ s'.maxBurst = s.maxBurst := by
  intro ops
  induction ops with
  | nil =>
    intro s s' _ h hinv
    injection h with h
    subst h
    exact ⟨hinv, rfl⟩
  | cons op ops ih =>
    intro s s' hev hrun hinv
    have hev' : op.isEvict = false ∧ evictFree ops = true := by
      simpa [evictFree, List.all_cons] using hev
    rw [runPool] at hrun
    cases hop : applyOp s op with
    | none => rw [hop] at hrun; cases hrun
    | some s1 =>
      rw [hop] at hrun
      obtain ⟨hinv1, hmb1⟩ := poolInv_step hev'.1 hop hinv
      obtain ⟨hinv2, hmb2⟩ := ih s1 s' hev'.2 hrun hinv1
      exact ⟨hinv2, hmb2.trans hmb1⟩

/-- C1 (counterexample): the claimed invariant
`managedCount + tokensInChannel = MaxBurst` fails at a quiescent point:
with `MaxBurst = 5, MinIdle = 2`, one successful replenish leaves
`managedCount = 1` and 5 tokens (sum 6). Moreover, with health-check
evictions the claimed bound `managedCount ≤ MaxBurst` also fails: after
two replenishes, two evictions and seven bursts the pool manages 7
containers with `MaxBurst = 5`. -/
theorem claimC1_counterexample :
    runPool (initPool 5 2) [.maintainOk 1] = some ⟨5, 2, 5, [1], 1⟩
    ∧ ¬(managedCount ⟨5, 2, 5, [1], 1⟩ + ((5 : Nat) : Int) = (5 : Int))
    ∧ runPool (initPool 5 2)
        [.maintainOk 1, .maintainOk 2, .healthEvict 0, .healthEvict 0,
         .acquireBurstOk 3, .acquireBurstOk 4, .acquireBurstOk 5, .acquireBurstOk 6,
         .acquireBurstOk 7, .acquireBurstOk 8, .acquireBurstOk 9] = some ⟨5, 2, 0, [], 7⟩
    ∧ ¬(managedCount ⟨5, 2, 0, [], 7⟩ ≤ (5 : Int)) := by
  refine ⟨by decide, by decide, by decide, by decide⟩

/-- C1 (amended): for every sequence of complete Acquire/Release/maintain
operations from a freshly initialised pool (no health-check evictions), at
every quiescent point `tokensInChannel + managedCount − |idle| = MaxBurst`
— i.e. the free tokens equal `MaxBurst` minus the leased/in-flight count,
because a replenished idle container's token is returned to the channel —
and `managedCount ≤ MaxBurst`. A health-check eviction returns a token it
never consumed and breaks both bounds. -/
theorem claimC1_amended (mb mi : Nat) (ops : List PoolOp) (s : PoolState)
    (hev : evictFree ops = true) (hrun : runPool (initPool mb mi) ops = some s) :
    (s.tokens : Int) + managedCount s - (s.idle.length : Int) = (mb : Int)
    ∧ managedCount s ≤ (mb : Int) := by
  obtain ⟨⟨h1, h2⟩, hmb⟩ := poolInv_run ops _ s hev hrun (poolInv_init mb mi)
  rw [show (initPool mb mi).maxBurst = mb from rfl] at hmb
  rw [hmb] at h1
  exact ⟨h1, by simp only [managedCount]; omega⟩

/-- Witness for C1 (amended) at `MaxBurst = 5, MinIdle = 2` with a
replenish, an idle reuse and a release. -/
theorem claimC1_amended_witness :
    ((PoolState.mk 5 2 5 [] 0).tokens : Int) + managedCount (PoolState.mk 5 2 5 [] 0)
        - (((PoolState.mk 5 2 5 [] 0).idle.length : Nat) : Int) = ((5 : Nat) : Int)
    ∧ managedCount (PoolState.mk 5 2 5 [] 0) ≤ ((5 : Nat) : Int) :=
  claimC1_amended 5 2 [.maintainOk 1, .acquireReuse, .release] ⟨5, 2, 5, [], 0⟩
    (by decide) (by decide)

/-- C2: a creation failure in the burst path of `Acquire` and in the
replenish path of `maintainPool` rolls back exactly what the reservation
took: `managedCount` is decremented exactly once, exactly one token is
sent back, and the composite of reservation and rollback leaves the pool
accounting unchanged. -/
theorem claimC2_creation_failure_rollback (s : PoolState) (h : 1 ≤ s.tokens) :
    (burstFailRollback (burstReserveCount (takeToken s)) = s
      ∧ (burstFailRollback (burstReserveCount (takeToken s))).managed
          = (burstReserveCount (takeToken s)).managed - 1
      ∧ (burstFailRollback (burstReserveCount (takeToken s))).tokens
          = (burstReserveCount (takeToken s)).tokens + 1)
    ∧ (maintainFailRollback (maintainReserveStep s) = s
      ∧ (maintainFailRollback (maintainReserveStep s)).managed
          = (maintainReserveStep s).managed - 1
      ∧ (maintainFailRollback (maintainReserveStep s)).tokens
          = (maintainReserveStep s).tokens + 1) := by
  obtain ⟨mb, mi, t, idle, m⟩ := s
  simp only [burstFailRollback, burstReserveCount, takeToken, maintainFailRollback,
    maintainReserveStep, PoolState.mk.injEq] at *
  refine ⟨⟨?_, ?_⟩, ?_, ?_⟩ <;> simp <;> omega

/-- Witness for C2 on a fresh pool with `MaxBurst = 5`. -/
theorem claimC2_witness :
    burstFailRollback (burstReserveCount (takeToken (initPool 5 2))) = initPool 5 2
    ∧ maintainFailRollback (maintainReserveStep (initPool 5 2)) = initPool 5 2 :=
  ⟨(claimC2_creation_failure_rollback (initPool 5 2) (by decide)).1.1,
   (claimC2_creation_failure_rollback (initPool 5 2) (by decide)).2.1⟩

/-- C9 (counterexample): `Release` does not always return a token. In a
reachable quiescent state (two replenishes, one idle reuse, one
health-check eviction, `MaxBurst = 3`) the channel is already full, the
non-blocking send takes the default branch, and the token count is
unchanged by `Release`. -/
theorem claimC9_counterexample :
    runPool (initPool 3 2) [.maintainOk 1, .maintainOk 2, .acquireReuse, .healthEvict 0]
      = some ⟨3, 2, 3, [], 1⟩
    ∧ applyOp ⟨3, 2, 3, [], 1⟩ .release = some ⟨3, 2, 3, [], 0⟩
    ∧ (PoolState.mk 3 2 3 [] 0).tokens = (PoolState.mk 3 2 3 [] 1).tokens := by
  refine ⟨by decide, by decide, rfl⟩

/-- C9 (amended): `Release` never touches the idle sequence, decrements
`managedCount` by exactly one under the lock, returns exactly one token
when the semaphore is below capacity (and drops it with a warning when the
channel already holds `MaxBurst` tokens), and only schedules the stop
(2-second timeout) and force-remove (30-second deadline) as a deferred
task that runs after `Release` returns. -/
theorem claimC9_release (s : PoolState) (c : Nat) :
    (releaseFull s c).1.idle = s.idle
    ∧ (releaseFull s c).1.managed = s.managed - 1
    ∧ (s.tokens < s.maxBurst → (releaseFull s c).1.tokens = s.tokens + 1)
    ∧ (s.maxBurst ≤ s.tokens → (releaseFull s c).1.tokens = s.tokens)
    ∧ (releaseFull s c).2 = ⟨c, 2, true, 30⟩ := by
  refine ⟨rfl, rfl, ?_, ?_, rfl⟩ <;>
    intro h <;> simp only [releaseFull, releaseStep] <;> split <;> omega

/-- Witness for C9 (amended): releasing a leased container from
`⟨maxBurst 5, tokens 4⟩` returns the token. -/
theorem claimC9_release_witness :
    (releaseFull (PoolState.mk 5 2 4 [] 1) 9).1.tokens = (PoolState.mk 5 2 4 [] 1).tokens + 1 :=
  (claimC9_release (PoolState.mk 5 2 4 [] 1) 9).2.2.1 (by decide)

/-- C10: `NewPool` normalises the configuration before anything runs: a
zero health-check interval becomes 2 seconds, a zero `MaxBurst` becomes 5
and is then raised to `MinIdle` when still below it, the semaphore is
filled with exactly the normalised `MaxBurst` tokens, and after
construction `MaxBurst < MinIdle` can never hold. -/
theorem claimC10_newPool_normalisation (cfg : PoolConfig) :
    (cfg.healthCheckIntervalMs = 0 → (normalizePoolConfig cfg).healthCheckIntervalMs = 2000)
    ∧ (cfg.healthCheckIntervalMs ≠ 0 →
        (normalizePoolConfig cfg).healthCheckIntervalMs = cfg.healthCheckIntervalMs)
    ∧ (cfg.maxBurst = 0 → (normalizePoolConfig cfg).maxBurst = max 5 cfg.minIdle)
    ∧ (cfg.maxBurst ≠ 0 → (normalizePoolConfig cfg).maxBurst = max cfg.maxBurst cfg.minIdle)
    ∧ (normalizePoolConfig cfg).minIdle = cfg.minIdle
    ∧ ¬((normalizePoolConfig cfg).maxBurst < (normalizePoolConfig cfg).minIdle)
    ∧ (newPoolState cfg).tokens = (normalizePoolConfig cfg).maxBurst
    ∧ (newPoolState cfg).managed = 0
    ∧ (newPoolState cfg).idle = [] := by
  obtain ⟨mi, mb, hci, dhc⟩ := cfg
  simp only [normalizePoolConfig, newPoolState]
  refine ⟨fun h => ?_, fun h => ?_, fun h => ?_, fun h => ?_, ?_, ?_, ?_, ?_, ?_⟩ <;>
    (try split_ifs) <;> simp_all <;> omega

/-- Witness for C10 at `MinIdle = 7, MaxBurst = 0`: the zero burst becomes
5 and is then raised to the idle target. -/
theorem claimC10_witness :
    (normalizePoolConfig ⟨7, 0, 0, false⟩).maxBurst = max 5 7 :=
  (claimC10_newPool_normalisation ⟨7, 0, 0, false⟩).2.2.1 rfl

/-! ### Claims about path resolution -/

/-- C3 (counterexample): the string-prefix defence admits sibling
escapes. `resolveHostPath` accepts `../proj-evil` because
`/data/projects/proj-evil` has `/data/projects/proj` as a string prefix,
yet the target lies outside the workspace root; `resolveContainerPath`
behaves the same for `../workspace-evil` under `/app/workspace`. -/
theorem claimC3_counterexample :
    resolveHostPath "/data/projects/proj" "../proj-evil" = .ok "/data/projects/proj-evil"
    ∧ specWithinRoot (goPathClean "/data/projects/proj") "/data/projects/proj-evil" = false
    ∧ resolveContainerPath defaultMountPath "../workspace-evil" = .ok "/app/workspace-evil"
    ∧ specWithinRoot defaultMountPath "/app/workspace-evil" = false :=
  ⟨rfl, rfl, rfl, rfl⟩

/-- C3 (amended): for every user path, `resolveHostPath` either returns a
target that has the cleaned host workspace root as a string prefix or
fails with an `InvalidPath` error, and `resolveContainerPath` either
returns a cleaned target that has the mount path as a string prefix or
fails with a plain path-escape error (not wrapped in `InvalidPath`).
String-prefix containment is weaker than directory containment: siblings
sharing the root as a textual prefix are accepted. -/
theorem claimC3_amended (hostPath mountPath userPath : String) :
    (∀ t, resolveHostPath hostPath userPath = .ok t →
        goHasPrefix t (goPathClean hostPath) = true)
    ∧ (∀ e, resolveHostPath hostPath userPath = .error e → ∃ m, e = .invalidPath m)
    ∧ (∀ t, resolveContainerPath mountPath userPath = .ok t →
        goHasPrefix t mountPath = true)
    ∧ (∀ e, resolveContainerPath mountPath userPath = .error e → ∃ m, e = .pathEscape m) := by
  refine ⟨?_, ?_, ?_, ?_⟩
  · intro t h
    rw [resolveHostPath] at h
    split at h
    · next hp => injection h with h; subst h; exact hp
    · cases h
  · intro e h
    rw [resolveHostPath] at h
    split at h
    · cases h
    · injection h with h; exact ⟨_, h.symm⟩
  · intro t h
    rw [resolveContainerPath] at h
    split at h
    · next hp => injection h with h; subst h; exact hp
    · cases h
  · intro e h
    rw [resolveContainerPath] at h
    split at h
    · cases h
    · injection h with h; exact ⟨_, h.symm⟩

/-- Witness for C3 (amended): a benign relative path stays under both
roots. -/
theorem claimC3_amended_witness :
    goHasPrefix "/ws/p/a" (goPathClean "/ws/p") = true
    ∧ goHasPrefix "/app/workspace/sub/x.py" defaultMountPath = true :=
  ⟨(claimC3_amended "/ws/p" defaultMountPath "a").1 "/ws/p/a" rfl,
   (claimC3_amended "/ws/p" defaultMountPath "sub/x.py").2.2.1 "/app/workspace/sub/x.py" rfl⟩

/-! ### Claims about the dispatcher -/

/-- No frame translation ever yields the `stream.done` type. -/
theorem mapProtoEventType_ne_streamDone (t : ProtoEventType) :
    (mapProtoEventType t == BusEventType.streamDone) = false := by
  cases t <;> rfl

/-- C4: for every successful `Dispatch` and every finite stream (its
frames plus how `Recv` ended — EOF, a frame error, or a transport
failure), the spawned reader publishes exactly one `stream.done` event,
and it is the last event published. -/
theorem claimC4_stream_done (sessionID : String) (frames : List AgentEvent)
    (ending : StreamEnd) :
    (readerPublishes sessionID frames ending).countP
        (fun e => e.type == BusEventType.streamDone) = 1
    ∧ (readerPublishes sessionID frames ending).getLast? = some (streamDoneEvent sessionID) := by
  have hframes : (frames.map (frameEvent sessionID)).countP
      (fun e => e.type == BusEventType.streamDone) = 0 := by
    rw [List.countP_eq_zero]
    intro e he
    obtain ⟨resp, -, hresp⟩ := List.mem_map.mp he
    subst hresp
    simp [frameEvent, mapProtoEventType_ne_streamDone resp.type]
  constructor
  · cases ending <;>
      simp [readerPublishes, List.countP_append, hframes, List.countP_cons,
        streamDoneEvent, publishErrorEvent]
  · cases ending <;>
      simp [readerPublishes, List.getLast?_concat]

/-! ### Claims about the worker's strategy dispatch -/

/-- C5 (counterexample): a payload with an unknown strategy makes
`HandleSessionCreate` return an error, but the handler produces no effect
at all — in particular the session row is never updated to `Error`. -/
theorem claimC5_counterexample :
    handleSessionCreate
        (.ok ⟨"s1", "p1", "u1", "img", "Mystery-Strategy", []⟩)
        ⟨.ok ⟨"c1", "10.0.0.2", ""⟩, .ok (), true, true, .ok (), .ok (), .ok (), .ok ()⟩
      = (.error "unknown strategy type: Mystery-Strategy", [])
    ∧ WorkerEffect.updateStatus "s1" .errorStatus ∉
        (handleSessionCreate
          (.ok ⟨"s1", "p1", "u1", "img", "Mystery-Strategy", []⟩)
          ⟨.ok ⟨"c1", "10.0.0.2", ""⟩, .ok (), true, true, .ok (), .ok (), .ok (), .ok ()⟩).2 := by
  refine ⟨rfl, ?_⟩
  intro hmem
  rw [show (handleSessionCreate
      (.ok ⟨"s1", "p1", "u1", "img", "Mystery-Strategy", []⟩)
      ⟨.ok ⟨"c1", "10.0.0.2", ""⟩, .ok (), true, true, .ok (), .ok (), .ok (), .ok ()⟩).2
      = ([] : List WorkerEffect) from rfl] at hmem
  exact List.not_mem_nil _ hmem

/-- C5 (amended): when the decoded payload's strategy is neither the Warm
nor the Cold strategy type, `HandleSessionCreate` returns an error for the
task without performing any repository update or bus publication (the
session row is not set to `Error`). -/
theorem claimC5_unknown_strategy (p : SessionCreatePayload) (o : WorkerOracle)
    (h1 : p.strategy ≠ warmStrategyType) (h2 : p.strategy ≠ coldStrategyType) :
    handleSessionCreate (.ok p) o = (.error ("unknown strategy type: " ++ p.strategy), []) := by
  rw [handleSessionCreate]
  rw [if_pos ⟨h1, h2⟩]

/-- Witness for C5 (amended) on a concrete unknown strategy. -/
theorem claimC5_witness :
    handleSessionCreate
        (.ok ⟨"s2", "p2", "u2", "img", "Other-Strategy", []⟩)
        ⟨.ok ⟨"c2", "10.0.0.3", ""⟩, .ok (), true, true, .ok (), .ok (), .ok (), .ok ()⟩
      = (.error "unknown strategy type: Other-Strategy", []) :=
  claimC5_unknown_strategy ⟨"s2", "p2", "u2", "img", "Other-Strategy", []⟩
    ⟨.ok ⟨"c2", "10.0.0.3", ""⟩, .ok (), true, true, .ok (), .ok (), .ok (), .ok ()⟩
    (by decide) (by decide)

/-! ### Claims about the event translation -/

/-- C6 (counterexample): a metadata map that contains the keys
`tool_name` and `arguments` (the latter as a number) produces a payload
with neither key: `tool_name` is only sourced from the metadata key `name`
and values must be strings. -/
theorem claimC6_counterexample :
    buildPayload ⟨.toolCall, "c", "s",
        some [("tool_name", .str "search"), ("arguments", .num 3), ("tool_call_id", .str "id1")]⟩
      = [("text", "c"), ("source", "s"), ("tool_call_id", "id1")]
    ∧ (buildPayload ⟨.toolCall, "c", "s",
        some [("tool_name", .str "search"), ("arguments", .num 3),
          ("tool_call_id", .str "id1")]⟩).lookup "tool_name" = none
    ∧ (buildPayload ⟨.toolCall, "c", "s",
        some [("tool_name", .str "search"), ("arguments", .num 3),
          ("tool_call_id", .str "id1")]⟩).lookup "arguments" = none :=
  ⟨rfl, rfl, rfl⟩

/-- C6 (amended): each frame is published with the event type of the
proto-to-topic table, `payload.text` is the frame's content and
`payload.source` its source; when the metadata JSON decodes to a map, the
payload key `tool_name` carries the string value of the metadata key
`name`, and `arguments` and `tool_call_id` the string values of the keys
of those names — each present exactly when the map holds a string under
that source key. -/
theorem claimC6_event_translation (sid : String) (resp : AgentEvent) :
    (mapProtoEventType .thought = .agentThought
      ∧ mapProtoEventType .toolCall = .agentToolCall
      ∧ mapProtoEventType .toolResult = .agentToolResult
      ∧ mapProtoEventType .answer = .agentAnswer
      ∧ mapProtoEventType .errorEvent = .agentError
      ∧ mapProtoEventType .statusEvent = .agentStatus
      ∧ mapProtoEventType .textChunk = .agentTextChunk
      ∧ mapProtoEventType .unspecified = .agentUnknown)
    ∧ frameEvent sid resp = ⟨mapProtoEventType resp.type, sid, buildPayload resp⟩
    ∧ (buildPayload resp).lookup "text" = some resp.content
    ∧ (buildPayload resp).lookup "source" = some resp.source
    ∧ (∀ meta, resp.metadata = some meta →
        (buildPayload resp).lookup "tool_name" = metaStr meta "name"
        ∧ (buildPayload resp).lookup "arguments" = metaStr meta "arguments"
        ∧ (buildPayload resp).lookup "tool_call_id" = metaStr meta "tool_call_id")
    ∧ (resp.metadata = none →
        buildPayload resp = [("text", resp.content), ("source", resp.source)]) := by
  obtain ⟨ty, content, source, metadata⟩ := resp
  refine ⟨⟨rfl, rfl, rfl, rfl, rfl, rfl, rfl, rfl⟩, rfl, ?_, ?_, ?_, ?_⟩
  · cases metadata with
    | none => rfl
    | some meta =>
      simp only [buildPayload]
      rcases h1 : metaStr meta "name" with - | v1 <;>
        rcases h2 : metaStr meta "arguments" with - | v2 <;>
        rcases h3 : metaStr meta "tool_call_id" with - | v3 <;>
          simp [List.lookup]
  · cases metadata with
    | none => rfl
    | some meta =>
      simp only [buildPayload]
      rcases h1 : metaStr meta "name" with - | v1 <;>
        rcases h2 : metaStr meta "arguments" with - | v2 <;>
        rcases h3 : metaStr meta "tool_call_id" with - | v3 <;>
          simp [List.lookup]
  · intro meta hmeta
    subst hmeta
    simp only [buildPayload]
    rcases h1 : metaStr meta "name" with - | v1 <;>
      rcases h2 : metaStr meta "arguments" with - | v2 <;>
      rcases h3 : metaStr meta "tool_call_id" with - | v3 <;>
        refine ⟨?_, ?_, ?_⟩ <;> simp [List.lookup]
  · intro hmeta
    subst hmeta
    rfl

/-- Witness for C6 (amended): a tool-call frame whose metadata holds
`name`, `arguments` and `tool_call_id` as strings. -/
theorem claimC6_witness :
    (buildPayload ⟨.toolCall, "calling", "agent",
        some [("name", .str "search"), ("arguments", .str "{}"),
          ("tool_call_id", .str "id9")]⟩).lookup "tool_name"
      = metaStr [("name", .str "search"), ("arguments", .str "{}"),
          ("tool_call_id", .str "id9")] "name" :=
  ((claimC6_event_translation "s" ⟨.toolCall, "calling", "agent",
      some [("name", .str "search"), ("arguments", .str "{}"),
        ("tool_call_id", .str "id9")]⟩).2.2.2.2.1 _ rfl).1

/-! ### Claims about the session repository -/

/-- After filtering out every pair with the given key, a lookup of that
key finds nothing. -/
theorem lookup_filter_out_key (l : List (String × CacheEntry)) (key : String) :
    (l.filter (fun kv => !(kv.1 == key))).lookup key = none := by
  induction l with
  | nil => rfl
  | cons kv rest ih =>
    obtain ⟨k, v⟩ := kv
    by_cases hk : k = key
    · rw [List.filter_cons, if_neg (by simp [hk])]
      exact ih
    · rw [List.filter_cons, if_pos (by simp [hk])]
      rw [List.lookup]
      rw [show (key == k) = false from by simp [Ne.symm hk]]
      exact ih

/-- C7: `GetByID` returns the cached record immediately on a hit (no
durable-store read, state unchanged); on a miss it reads the durable store
and populates the cache with the 5-minute TTL; and a successful
`UpdateSessionStatus` or `UpdateSessionContainerInfo` writes the durable
store and then deletes the cache entry, so a subsequent `GetByID` cannot
observe a pre-update cached value: it reads the durable store, which
already carries the update. -/
theorem claimC7_repository (s : RepoState) (id cid ip : String) (st : SessionStatus)
    (hredis : s.hasRedis = true) :
    (∀ e, cacheGet s (sessionCacheKey id) = some e →
        getByID s id = ⟨.ok e.value, s, false⟩)
    ∧ (∀ row, cacheGet s (sessionCacheKey id) = none → dbLookup s.db id = some row →
        getByID s id = ⟨.ok row, cacheSet s (sessionCacheKey id) ⟨row, sessionCacheTTLSeconds⟩, true⟩)
    ∧ ((updateSessionStatus s true id st).1 = .ok ()
        ∧ (updateSessionStatus s true id st).2.db = dbUpdateStatus s.db id st
        ∧ cacheGet (updateSessionStatus s true id st).2 (sessionCacheKey id) = none)
    ∧ ((updateSessionContainerInfo s true id cid ip).1 = .ok ()
        ∧ (updateSessionContainerInfo s true id cid ip).2.db = dbUpdateContainerInfo s.db id cid ip
        ∧ cacheGet (updateSessionContainerInfo s true id cid ip).2 (sessionCacheKey id) = none)
    ∧ (getByID (updateSessionStatus s true id st).2 id).readDb = true
    ∧ (∀ row, dbLookup (dbUpdateStatus s.db id st) id = some row →
        (getByID (updateSessionStatus s true id st).2 id).result = .ok row) := by
  have hdelStatus : cacheGet (updateSessionStatus s true id st).2 (sessionCacheKey id) = none := by
    simp only [updateSessionStatus, Bool.not_true, Bool.false_eq_true, if_false, hredis, if_true]
    exact lookup_filter_out_key _ _
  have hdelInfo :
      cacheGet (updateSessionContainerInfo s true id cid ip).2 (sessionCacheKey id) = none := by
    simp only [updateSessionContainerInfo, Bool.not_true, Bool.false_eq_true, if_false, hredis,
      if_true]
    exact lookup_filter_out_key _ _
  refine ⟨?_, ?_, ⟨?_, ?_, hdelStatus⟩, ⟨?_, ?_, hdelInfo⟩, ?_, ?_⟩
  · intro e he
    rw [getByID.eq_def, hredis]
    simp only [if_true, he]
  · intro row hmiss hdb
    rw [getByID.eq_def, hredis]
    simp only [if_true, hmiss, hdb]
  · simp [updateSessionStatus]
  · simp [updateSessionStatus, hredis, cacheDel]
  · simp [updateSessionContainerInfo]
  · simp [updateSessionContainerInfo, hredis, cacheDel]
  · rw [getByID.eq_def]
    have hr2 : (updateSessionStatus s true id st).2.hasRedis = true := by
      simp [updateSessionStatus, hredis, cacheDel]
    rw [hr2]
    simp only [if_true, hdelStatus]
    cases dbLookup (updateSessionStatus s true id st).2.db id <;> rfl
  · intro row hdb
    rw [getByID.eq_def]
    have hr2 : (updateSessionStatus s true id st).2.hasRedis = true := by
      simp [updateSessionStatus, hredis, cacheDel]
    have hdb2 : (updateSessionStatus s true id st).2.db = dbUpdateStatus s.db id st := by
      simp [updateSessionStatus, hredis, cacheDel]
    rw [hr2]
    simp only [if_true, hdelStatus, hdb2, hdb]

/-- Witness for C7 on a one-row store with a stale cached copy: after a
status update the cache entry is gone and the read returns the updated
row. -/
theorem claimC7_witness :
    cacheGet (updateSessionStatus
        ⟨[⟨"s1", "p", "u", "", "", .ready, "Warm-Strategy", 10⟩],
         [(sessionCacheKey "s1", ⟨⟨"s1", "p", "u", "", "", .ready, "Warm-Strategy", 10⟩, 300⟩)],
         true⟩ true "s1" .terminated).2 (sessionCacheKey "s1") = none :=
  (claimC7_repository
    ⟨[⟨"s1", "p", "u", "", "", .ready, "Warm-Strategy", 10⟩],
     [(sessionCacheKey "s1", ⟨⟨"s1", "p", "u", "", "", .ready, "Warm-Strategy", 10⟩, 300⟩)],
     true⟩ "s1" "" "" .terminated rfl).2.2.1.2.2

/-! ### Claims about the session cleaner -/

/-- C8: a session is passed to the terminator only if its status is one of
Initializing/Ready/Running and it was created strictly before
`now − MaxAge` (so no session younger than `MaxAge` is ever passed), and
whenever the terminator fails for a targeted session the cleaner forces
that session's status to Error in the store. -/
theorem claimC8_cleaner (now maxAge : Int) (db : List SessionRec) (termFails : String → Bool) :
    (∀ id ∈ (cleanupTick now maxAge db termFails).1,
        ∃ sess, sess ∈ db ∧ sess.id = id ∧ sess.status ∈ activeStatuses
          ∧ sess.createdAt < now - maxAge)
    ∧ (∀ sess ∈ cleanerTargets now maxAge db, termFails sess.id = true →
        (sess.id, SessionStatus.errorStatus) ∈ (cleanupTick now maxAge db termFails).2) := by
  constructor
  · intro id hid
    simp only [cleanupTick, List.mem_map] at hid
    obtain ⟨sess, hsess, hidEq⟩ := hid
    simp only [cleanerTargets, listByStatus, List.mem_filter, decide_eq_true_eq] at hsess
    obtain ⟨⟨hdb, hstat⟩, hage⟩ := hsess
    refine ⟨sess, hdb, hidEq, ?_, hage⟩
    simpa [List.contains, List.elem_iff] using hstat
  · intro sess hsess hfail
    simp only [cleanupTick, List.mem_map]
    exact ⟨sess, List.mem_filter.mpr ⟨hsess, by simp [hfail]⟩, rfl⟩

/-- Witness for C8: a five-second-old Initializing session with
`MaxAge = 1` and a failing terminator is targeted and forced to Error. -/
theorem claimC8_witness :
    ("stuck", SessionStatus.errorStatus) ∈
      (cleanupTick 100 1 [⟨"stuck", "p", "u", "", "", .initializing, "Cold-Strategy", 95⟩]
        (fun _ => true)).2 :=
  (claimC8_cleaner 100 1 [⟨"stuck", "p", "u", "", "", .initializing, "Cold-Strategy", 95⟩]
      (fun _ => true)).2
    ⟨"stuck", "p", "u", "", "", .initializing, "Cold-Strategy", 95⟩ (by decide) rfl

end AgentSandbox
